import Mathlib

/-!
Shallow embedding of the core of the `mcp-jira-server` repository:
the retry helper (`src/utils/retry.ts`), the transport request path of
`JiraClient.request`, the `FieldDetector` field-resolution engine
(`src/utils/field-detector.ts`), the `normalizeIssueType` name normalizer
and the `link-issues` tool handler (`src/tools/issue-tools.ts`).
JavaScript strings are modelled as Lean `String`, JS objects as
association lists preserving insertion order, machine numbers as `Nat`
(all relevant quantities are non-negative integers), and thrown
exceptions as `Except` values.
-/

namespace JiraMcp

/-- Lower-casing of a single character as JavaScript `toLowerCase` does it,
covering ASCII plus the accented letters appearing in the repository's
localized tables and patterns. -/
def jsCharToLower (c : Char) : Char :=
  if 'A' ≤ c ∧ c ≤ 'Z' then Char.ofNat (c.toNat + 32)
  else if c = 'Á' then 'á'
  else if c = 'Č' then 'č'
  else if c = 'Ď' then 'ď'
  else if c = 'É' then 'é'
  else if c = 'Ě' then 'ě'
  else if c = 'Í' then 'í'
  else if c = 'Ň' then 'ň'
  else if c = 'Ó' then 'ó'
  else if c = 'Ř' then 'ř'
  else if c = 'Š' then 'š'
  else if c = 'Ť' then 'ť'
  else if c = 'Ú' then 'ú'
  else if c = 'Ů' then 'ů'
  else if c = 'Ý' then 'ý'
  else if c = 'Ž' then 'ž'
  else c

/-- JavaScript `String.prototype.toLowerCase` over the supported alphabet. -/
def jsToLower (s : String) : String :=
  ⟨s.data.map jsCharToLower⟩

/-- Substring test on character lists: does `sub` occur in the list? -/
def containsSubAux (sub : List Char) : List Char → Bool
  | [] => sub.isEmpty
  | c :: t => sub.isPrefixOf (c :: t) || containsSubAux sub t

/-- JavaScript `String.prototype.includes`. -/
def containsSub (hay sub : String) : Bool :=
  containsSubAux sub.data hay.data

/-- JavaScript `String.prototype.substring(0, n)`. -/
def takeStr (n : Nat) (s : String) : String :=
  ⟨s.data.take n⟩

/-! ## The retry helper, from `src/utils/retry.ts`.

`retry(fn, options)` invokes `fn` up to `maxAttempts` times.  A thrown
error whose message contains the substring `HTTP 4` is rethrown at once;
otherwise, when attempts remain, the loop sleeps the current delay and
multiplies it by `backoffMultiplier`, capped at `maxDelayMs`.  We model
the i-th invocation's outcome by `outcomes i` and record the number of
invocations actually made and the list of delays actually slept. -/

/-- A thrown JS `Error` as produced by the transport: its message, plus the
HTTP status attached by `JiraClient.request` when one exists. -/
structure JsError where
  message : String
  status : Option Nat
  deriving Repr, DecidableEq

/-- Result of a `retry` run: the final outcome, the number of invocations of
the wrapped function, and the delays slept between attempts, in order. -/
structure RetryOut (α : Type) where
  result : Except JsError α
  calls : Nat
  delays : List Nat
  deriving Repr

/-- One unrolling of the `for (attempt = 1; attempt <= maxAttempts; ...)`
loop of `retry`; `remaining` counts the attempts still allowed and `idx`
indexes the next invocation. -/
def retryAux (outcomes : Nat → Except JsError α) : Nat → Nat → Nat → Nat → Nat →
    Option JsError → RetryOut α
  | _, 0, _, _, _, lastErr =>
      ⟨Except.error (lastErr.getD ⟨"Retry failed", none⟩), 0, []⟩
  | idx, r + 1, delay, mult, maxD, _ =>
      match outcomes idx with
      | Except.ok v => ⟨Except.ok v, 1, []⟩
      | Except.error e =>
        if containsSub e.message "HTTP 4" then ⟨Except.error e, 1, []⟩
        else if r = 0 then ⟨Except.error e, 1, []⟩
        else
          let rest := retryAux outcomes (idx + 1) r (min (delay * mult) maxD) mult maxD (some e)
          ⟨rest.result, rest.calls + 1, delay :: rest.delays⟩

/-- The `retry` function: run from attempt 1 with the configured initial
delay.  The TypeScript defaults are maxAttempts 3, delayMs 1000,
backoffMultiplier 2, maxDelayMs 10000. -/
def retryRun (outcomes : Nat → Except JsError α)
    (maxAttempts delayMs backoffMultiplier maxDelayMs : Nat) : RetryOut α :=
  retryAux outcomes 0 maxAttempts delayMs backoffMultiplier maxDelayMs none

/-! ## JSON values and the JavaScript coercions the transport relies on. -/

/-- A parsed JSON value, as produced by `res.json()`. -/
inductive Jv where
  | nullv : Jv
  | boolv : Bool → Jv
  | num : Int → Jv
  | str : String → Jv
  | arr : List Jv → Jv
  | obj : List (String × Jv) → Jv
  deriving Inhabited

/-- JavaScript truthiness of a value. -/
def jsTruthy : Jv → Bool
  | Jv.nullv => false
  | Jv.boolv b => b
  | Jv.num n => n ≠ 0
  | Jv.str s => s ≠ ""
  | Jv.arr _ => true
  | Jv.obj _ => true

/-- Property access `o.k`: `none` models JavaScript `undefined`. -/
def getFieldJv (j : Jv) (k : String) : Option Jv :=
  match j with
  | Jv.obj fields => (fields.find? (fun kv => kv.1 == k)).map (·.2)
  | _ => none

/-- Truthiness of a possibly-undefined value (`undefined` is falsy). -/
def jsTruthyO : Option Jv → Bool
  | some v => jsTruthy v
  | none => false

/-- Is this JSON value `null`? -/
def isNullJv : Jv → Bool
  | Jv.nullv => true
  | _ => false

mutual

/-- JavaScript `String(v)` coercion for the value shapes the transport can
meet in an error body; inside an array join, `null` elements print as the
empty string. -/
def jsToString : Jv → String
  | Jv.nullv => "null"
  | Jv.boolv b => if b then "true" else "false"
  | Jv.num n => toString n
  | Jv.str s => s
  | Jv.arr l => String.intercalate "," (jsToStringList l)
  | Jv.obj _ => "[object Object]"

/-- Stringification of the elements of an array under `join`. -/
def jsToStringList : List Jv → List String
  | [] => []
  | v :: t => (if isNullJv v then "" else jsToString v) :: jsToStringList t

end

/-- `Array.prototype.join(sep)` over JSON elements. -/
def joinJs (sep : String) (l : List Jv) : String :=
  String.intercalate sep (jsToStringList l)

/-- JavaScript `Object.entries` for the value shapes that can reach it in
the transport (objects; arrays and strings enumerate by index; other
primitives have no own enumerable properties). -/
def jsEntries : Jv → List (String × Jv)
  | Jv.obj fields => fields
  | Jv.arr l => (l.enum).map (fun p => (toString p.1, p.2))
  | Jv.str s => (s.data.enum).map (fun p => (toString p.1, Jv.str (String.mk [p.2])))
  | _ => []

/-! ## The transport: the attempt body of `JiraClient.request`
(`src/utils/jira-client.ts`, the version wrapping each attempt in
`retry`). -/

/-- An HTTP response as observed by one attempt: status and status text,
the `content-type` and `content-length` headers (`none` models an absent
header), the result of `res.json()` (`none` models a parse failure that
throws), and the result of `res.text()`. -/
structure HttpResponse where
  status : Nat
  statusText : String
  contentType : Option String
  contentLength : Option String
  jsonBody : Option Jv
  textBody : String

/-- `res.ok` of node-fetch: status in the range 200-299. -/
def resOk (res : HttpResponse) : Bool :=
  200 ≤ res.status && res.status < 300

/-- The raw HTTP status line used as the default error message:
the template `HTTP (status): (statusText)`. -/
def statusLine (res : HttpResponse) : String :=
  "HTTP " ++ toString res.status ++ ": " ++ res.statusText

/-- `contentType?.includes("application/json")`; an absent header is
`undefined`, which short-circuits to falsy. -/
def ctJson (res : HttpResponse) : Bool :=
  match res.contentType with
  | some ct => containsSub ct "application/json"
  | none => false

/-- JavaScript falsiness of the `content-type` header value
(`!contentType`): absent or the empty string. -/
def ctFalsy (res : HttpResponse) : Bool :=
  match res.contentType with
  | some ct => ct == ""
  | none => true

/-- Flattening of a field-error map: `Object.entries(errors).map(([k, v]) =>
k + ": " + v).join(", ")`. -/
def flattenErrors (v : Jv) : String :=
  String.intercalate ", "
    ((jsEntries v).map (fun kv => kv.1 ++ ": " ++ jsToString kv.2))

/-- Error-message extraction for a non-2xx response, mirroring the
`if (!res.ok)` block of `JiraClient.request`: start from the status line;
for a JSON content type parse the body and take, in order, a truthy
`errorMessages` joined with a comma, a truthy `errors` map flattened when
the flattening is nonempty, or a truthy `message`; any exception inside
the extraction (a failed parse, or a `join` on a non-array) is caught and
leaves the status line; for a non-JSON body append the first 200
characters of the body text when it is nonempty. -/
def extractErrorMessage (res : HttpResponse) : String :=
  let base := statusLine res
  if ctJson res then
    match res.jsonBody with
    | none => base
    | some j =>
      if jsTruthyO (getFieldJv j "errorMessages") then
        match getFieldJv j "errorMessages" with
        | some (Jv.arr l) => joinJs ", " l
        | _ => base
      else if jsTruthyO (getFieldJv j "errors") then
        match getFieldJv j "errors" with
        | some v => if flattenErrors v == "" then base else flattenErrors v
        | none => base
      else if jsTruthyO (getFieldJv j "message") then
        match getFieldJv j "message" with
        | some v => jsToString v
        | none => base
      else base
  else if res.textBody == "" then base
  else base ++ " - " ++ takeStr 200 res.textBody

/-- One attempt of `JiraClient.request`: a non-2xx response throws an
`Error` carrying the extracted message and the status; a 2xx response with
a falsy content type, `content-length: 0`, or status 204 yields success
with an empty payload; a JSON content type parses the body, degrading a
parse failure to success with an empty payload; any other content type
yields success with an empty payload. -/
def jiraAttempt (res : HttpResponse) : Except JsError Jv :=
  if !resOk res then
    Except.error ⟨extractErrorMessage res, some res.status⟩
  else if ctFalsy res || res.contentLength == some "0" || res.status == 204 then
    Except.ok (Jv.obj [])
  else if ctJson res then
    match res.jsonBody with
    | some data => Except.ok data
    | none => Except.ok (Jv.obj [])
  else Except.ok (Jv.obj [])

/-- The outcome shape `JiraApiResponse` returned by `JiraClient.request`:
success with a payload, or failure with an error message. -/
inductive ApiOut where
  | ok : Jv → ApiOut
  | err : String → ApiOut

/-- Result of a whole `JiraClient.request` call: the outcome together with
the number of HTTP attempts made and the delays slept between them. -/
structure RequestOut where
  result : ApiOut
  calls : Nat
  delays : List Nat

/-- `JiraClient.request`: run the attempt through `retry` with
maxAttempts 3, delayMs 1000, backoffMultiplier 2 (maxDelayMs defaulting
to 10000); a final thrown error is converted into a failure outcome
carrying the error message.  `responses i` is the response the i-th
attempt observes. -/
def jiraRequest (responses : Nat → HttpResponse) : RequestOut :=
  let r := retryRun (fun i => jiraAttempt (responses i)) 3 1000 2 10000
  match r.result with
  | Except.ok v => ⟨ApiOut.ok v, r.calls, r.delays⟩
  | Except.error e => ⟨ApiOut.err e.message, r.calls, r.delays⟩

/-! ## Association lists with JavaScript-object semantics.

A JS object keeps insertion order; assigning to an existing key updates
the value in place, assigning to a new key appends. -/

/-- Property read `o[k]`, `undefined` as `none`. -/
def lookupA (m : List (String × β)) (k : String) : Option β :=
  (m.find? (fun kv => kv.1 == k)).map (·.2)

/-- Property write `o[k] = v`. -/
def upsertAssoc (m : List (String × β)) (k : String) (v : β) : List (String × β) :=
  if m.any (fun kv => kv.1 == k) then
    m.map (fun kv => if kv.1 == k then (k, v) else kv)
  else m ++ [(k, v)]

/-! ## The field detector, from `src/utils/field-detector.ts`. -/

/-- One token of a field-name pattern: a literal character, `\s*`
(any amount of whitespace), or an optional character (`s?`). -/
inductive Tok where
  | lit : Char → Tok
  | ws : Tok
  | opt : Char → Tok

/-- The whitespace class `\s` of JavaScript regular expressions
(the characters relevant here). -/
def isWsChar (c : Char) : Bool :=
  c == ' ' || c == '\t' || c == '\n' || c == '\r' || c == '\x0b' || c == '\x0c'

/-- All suffixes of `ds` reachable by dropping leading whitespace. -/
def wsSuffixes : List Char → List (List Char)
  | [] => [[]]
  | c :: t => (c :: t) :: (if isWsChar c then wsSuffixes t else [])

/-- Match a pattern against a prefix of the character list (the rest of the
input may be anything, as in `RegExp.prototype.test`). -/
def matchToks : List Tok → List Char → Bool
  | [], _ => true
  | Tok.lit _ :: _, [] => false
  | Tok.lit c :: ts, d :: ds => c == d && matchToks ts ds
  | Tok.opt _ :: ts, [] => matchToks ts []
  | Tok.opt c :: ts, d :: ds => (c == d && matchToks ts ds) || matchToks ts (d :: ds)
  | Tok.ws :: ts, ds => (wsSuffixes ds).any (fun ds2 => matchToks ts ds2)

/-- `pattern.test(s)`: the pattern matches starting at some position. -/
def testPat (p : List Tok) (s : String) : Bool :=
  (List.range (s.data.length + 1)).any (fun i => matchToks p (s.data.drop i))

/-- Literal pattern characters from a string. -/
def litToks (s : String) : List Tok :=
  s.data.map Tok.lit

/-- The ordered `fieldPatterns` table of `FieldDetector.detectFields`:
for each field role, the ordered case-insensitive name patterns (written
here in lower case, as they are tested against the lower-cased field
name). -/
def fieldPatterns : List (String × List (List Tok)) :=
  [("storyPoints",
     [litToks "story" ++ [Tok.ws] ++ litToks "point" ++ [Tok.opt 's'],
      litToks "story" ++ [Tok.ws] ++ litToks "point",
      litToks "estimation",
      litToks "bodové" ++ [Tok.ws] ++ litToks "ohodnocení",
      litToks "body"]),
   ("epicLink",
     [litToks "epic" ++ [Tok.ws] ++ litToks "link",
      litToks "parent" ++ [Tok.ws] ++ litToks "epic",
      litToks "epic" ++ [Tok.ws] ++ litToks "name",
      litToks "epic"]),
   ("acceptanceCriteria",
     [litToks "acceptance" ++ [Tok.ws] ++ litToks "criteria",
      litToks "akceptační" ++ [Tok.ws] ++ litToks "kritéria",
      litToks "definition" ++ [Tok.ws] ++ litToks "of" ++ [Tok.ws] ++ litToks "done"]),
   ("team",
     [litToks "team",
      litToks "tým"]),
   ("startDate",
     [litToks "start" ++ [Tok.ws] ++ litToks "date",
      litToks "datum" ++ [Tok.ws] ++ litToks "zahájení",
      litToks "začátek"]),
   ("dueDate",
     [litToks "due" ++ [Tok.ws] ++ litToks "date",
      litToks "datum" ++ [Tok.ws] ++ litToks "dokončení",
      litToks "termín",
      litToks "deadline"]),
   ("originalEstimate",
     [litToks "original" ++ [Tok.ws] ++ litToks "estimate",
      litToks "původní" ++ [Tok.ws] ++ litToks "odhad",
      litToks "initial" ++ [Tok.ws] ++ litToks "estimate"]),
   ("remainingEstimate",
     [litToks "remaining" ++ [Tok.ws] ++ litToks "estimate",
      litToks "zbývající" ++ [Tok.ws] ++ litToks "odhad",
      litToks "time" ++ [Tok.ws] ++ litToks "remaining"])]

/-- A field definition from the create-metadata document: only its display
name matters to the detector (`field.name` may be absent). -/
structure FMeta where
  fname : Option String

/-- The lower-cased display name tested against the patterns:
`field.name?.toLowerCase() || ""`. -/
def fieldNameOf (f : FMeta) : String :=
  match f.fname with
  | some n => jsToLower n
  | none => ""

/-- The first role (in `fieldPatterns` order) one of whose patterns matches
the given lower-cased field name — the `for ... of Object.entries(
fieldPatterns)` loop with its `break` after the first hit. -/
def firstRole (fname : String) : Option String :=
  (fieldPatterns.find? (fun rp => rp.2.any (fun p => testPat p fname))).map (·.1)

/-- The pattern-matching pass of `detectFields` over the unioned field map:
each field is assigned to its first matching role, a later assignment to
the same role overwriting an earlier one. -/
def matchFields (all : List (String × FMeta)) : List (String × String) :=
  all.foldl
    (fun acc kf =>
      match firstRole (fieldNameOf kf.2) with
      | some role => upsertAssoc acc role kf.1
      | none => acc)
    []

/-- An issue type in the create-metadata document: its name and its field
definitions (`fields` may be absent). -/
structure ItMeta where
  itName : String
  fields : Option (List (String × FMeta))

/-- A project entry in the create-metadata document. -/
structure ProjMeta where
  issuetypes : Option (List ItMeta)

/-- The create-metadata document returned by `client.getCreateMeta`. -/
structure CreateMeta where
  projects : Option (List ProjMeta)

/-- The union of the field definitions across the matched issue types,
first-seen wins on key collision, insertion order preserved — the
`allFields` Map of `detectFields`. -/
def unionFields (its : List ItMeta) : List (String × FMeta) :=
  its.foldl
    (fun acc it =>
      match it.fields with
      | some fs =>
          fs.foldl
            (fun acc2 kf => if acc2.any (fun e => e.1 == kf.1) then acc2 else acc2 ++ [kf])
            acc
      | none => acc)
    []

/-- The cache key: the template `(projectKey)-(issueType || "all")`; an
empty-string issue type is falsy in JavaScript and also maps to `all`. -/
def scopeKey (projectKey : String) (issueType : Option String) : String :=
  projectKey ++ "-" ++
    (match issueType with
     | some s => if s == "" then "all" else s
     | none => "all")

/-- The truthiness-normalized issue-type argument, as used both by the
cache key and by the issue-type filter. -/
def itNorm (issueType : Option String) : Option String :=
  match issueType with
  | some s => if s == "" then none else some s
  | none => none

/-- The issue types examined: with a truthy `issueType` argument,
`project.issuetypes?.filter` by case-insensitive name equality; otherwise
`project.issuetypes` itself (possibly absent). -/
def issueTypesOf (proj : ProjMeta) (issueType : Option String) : Option (List ItMeta) :=
  match itNorm issueType with
  | some t => proj.issuetypes.map (fun l =>
      l.filter (fun it => jsToLower it.itName == jsToLower t))
  | none => proj.issuetypes

/-- A role-to-field-identifier map, plus the detector's cache. -/
abbrev FieldCache := List (String × List (String × String))

/-- Result of one `FieldDetector.detectFields` call: the returned map, the
cache afterwards, and the number of `client.getCreateMeta` calls made
(0 on a cache hit, 1 otherwise). -/
structure DetectOut where
  result : List (String × String)
  cache : FieldCache
  metaCalls : Nat

/-- `FieldDetector.detectFields(projectKey, issueType)`: serve from cache
when the scope key is present; otherwise call `getCreateMeta` (modelled by
the `resp` argument, `none` covering a failed call and an absent payload)
and either return an empty map on any of the early exits — failure, no
first project, absent or empty issue-type list — without caching, or
union the fields, run the pattern match, cache the result under the scope
key and return it. -/
def detectFields (cache : FieldCache) (projectKey : String)
    (issueType : Option String) (resp : Option CreateMeta) : DetectOut :=
  let key := scopeKey projectKey issueType
  match lookupA cache key with
  | some m => ⟨m, cache, 0⟩
  | none =>
    match resp with
    | none => ⟨[], cache, 1⟩
    | some meta =>
      match meta.projects.bind List.head? with
      | none => ⟨[], cache, 1⟩
      | some proj =>
        match issueTypesOf proj issueType with
        | none => ⟨[], cache, 1⟩
        | some its =>
          if its.isEmpty then ⟨[], cache, 1⟩
          else
            let detected := matchFields (unionFields its)
            ⟨detected, upsertAssoc cache key detected, 1⟩

/-- JavaScript `key.startsWith(p)`. -/
def jsStartsWith (key p : String) : Bool :=
  p.data.isPrefixOf key.data

/-- `FieldDetector.clearCache(projectKey?)`: with an argument, delete every
cache entry whose key starts with it; with no argument, reset the cache. -/
def clearCache (projectKey : Option String) (cache : FieldCache) : FieldCache :=
  match projectKey with
  | some p => cache.filter (fun kv => !(jsStartsWith kv.1 p))
  | none => []

/-! ## The name normalizer, from `src/tools/issue-tools.ts`. -/

/-- The static `issueTypeMap` table: canonical name to localized
synonyms. -/
def issueTypeMap : List (String × List String) :=
  [("Epic", ["Epic", "Epik", "Epika"]),
   ("Story", ["Story", "User Story", "Příběh", "Uživatelský příběh"]),
   ("Task", ["Task", "Úkol"]),
   ("Bug", ["Bug", "Chyba", "Defekt"]),
   ("Subtask", ["Subtask", "Sub-task", "Dílčí úkol", "Podúkol"])]

/-- The table lookup inside `normalizeIssueType`: the first canonical entry
one of whose variants equals the lower-cased input, compared in lower
case. -/
def lookupIssueType (localizedType : String) : Option String :=
  (issueTypeMap.find?
    (fun e => e.2.any (fun v => jsToLower v == jsToLower localizedType))).map (·.1)

/-- `normalizeIssueType`: the canonical name when the table matches, the
input unchanged otherwise. -/
def normalizeIssueType (localizedType : String) : String :=
  match lookupIssueType localizedType with
  | some std => std
  | none => localizedType

/-! ## The `link-issues` tool handler, from `src/tools/issue-tools.ts`. -/

/-- Outcome of one `client.linkIssues` call: success, or failure with the
error message from the transport. -/
abbrev LinkResult := Except String Unit

/-- Does the failure message of a link attempt contain the substring?
(`result.error?.includes(sub)`; a success has no error, hence falsy.) -/
def linkErrIncludes (r : LinkResult) (sub : String) : Bool :=
  match r with
  | Except.error e => containsSub e sub
  | Except.ok _ => false

/-- One issue-link-type metadata entry, with the optional fields the
handler reads through optional chaining. -/
structure LinkType where
  ltName : Option String
  inwardD : Option String
  outwardD : Option String

/-- The payload of a successful `getLinkTypes` call: either a bare array,
or an object whose `issueLinkTypes` property may hold the array
(`Array.isArray(data) ? data : data.issueLinkTypes || []`). -/
inductive LinkTypesData where
  | arrD : List LinkType → LinkTypesData
  | objD : Option (List LinkType) → LinkTypesData

/-- The array extracted from the `getLinkTypes` payload. -/
def linkTypesList : LinkTypesData → List LinkType
  | LinkTypesData.arrD l => l
  | LinkTypesData.objD o => o.getD []

/-- Template rendering of a possibly-undefined string field
(JS prints `undefined`). -/
def optField (o : Option String) : String :=
  o.getD "undefined"

/-- The guidance text returned for Epic-Story link attempts. -/
def epicGuidanceText : String :=
  "❌ Epic-Story relationships cannot be created using link-issues.\n\nTo link a Story to an Epic:\n1. Update the story with epicLink field\n2. Or create the story with epicLink parameter\n\nExample: update-issue PROJ-123 with epicLink: \"PROJ-100\""

/-- The final success/failure rendering shared by the handler paths that
fall through to the end of the `try` block. -/
def linkFinalText (inwardIssue outwardIssue linkType : String) (r : LinkResult) : String :=
  match r with
  | Except.error e => "❌ Failed to link issues: " ++ e
  | Except.ok _ =>
      "✅ Linked " ++ inwardIssue ++ " to " ++ outwardIssue ++ " with \"" ++ linkType ++ "\""

/-- Result of a run of the `link-issues` handler: the text returned to the
caller, the number of `client.linkIssues` attempts made, and whether
`client.getLinkTypes` was called. -/
structure LinkOut where
  text : String
  attempts : Nat
  fetchedTypes : Bool

/-- The case-insensitive match of the requested type against an entry's
name, inward phrase, or outward phrase. -/
def ltMatches (requested : String) (lt : LinkType) : Bool :=
  lt.ltName.map jsToLower == some requested ||
  lt.inwardD.map jsToLower == some requested ||
  lt.outwardD.map jsToLower == some requested

/-- The `link-issues` handler: attempt the link with the literal type name
(`firstResult`); on a failure that looks like an Epic-Story attempt
(requested type contains `epic`, or the error mentions the system link
type in either language), return fixed guidance; on a failure whose error
mentions the link type, fetch the link types (`fetchResult`, `none`
modelling a failed or payload-less fetch) and, when the extracted list is
nonempty, either retry once with the matched entry's name (`retryFn`) or
report the available types; finally render the outcome. -/
def linkIssuesHandler (inwardIssue outwardIssue linkType : String)
    (firstResult : LinkResult) (fetchResult : Option LinkTypesData)
    (retryFn : Option String → LinkResult) : LinkOut :=
  if !firstResult.isOk &&
      (containsSub (jsToLower linkType) "epic" ||
       linkErrIncludes firstResult "systémového propojení" ||
       linkErrIncludes firstResult "system link type") then
    ⟨epicGuidanceText, 1, false⟩
  else if !firstResult.isOk &&
      (linkErrIncludes firstResult "typ odkazu" ||
       linkErrIncludes firstResult "link type") then
    match fetchResult with
    | none => ⟨linkFinalText inwardIssue outwardIssue linkType firstResult, 1, true⟩
    | some data =>
      let linkTypes := linkTypesList data
      if linkTypes.isEmpty then
        ⟨linkFinalText inwardIssue outwardIssue linkType firstResult, 1, true⟩
      else
        match linkTypes.find? (ltMatches (jsToLower linkType)) with
        | some mt =>
            ⟨linkFinalText inwardIssue outwardIssue linkType (retryFn mt.ltName), 2, true⟩
        | none =>
            let available := String.intercalate ", "
              (linkTypes.map (fun lt =>
                "\"" ++ optField lt.ltName ++ "\" (" ++ optField lt.inwardD ++ "/" ++
                  optField lt.outwardD ++ ")"))
            ⟨"❌ Link type \"" ++ linkType ++ "\" not found.\nAvailable types: " ++ available,
              1, true⟩
  else ⟨linkFinalText inwardIssue outwardIssue linkType firstResult, 1, false⟩

/-! ## Spec-side definitions and concrete inputs used by the claims. -/

/-- Does a `detectFields` call on a cache miss reach the caching path:
a present metadata payload, a first project, and a nonempty (possibly
filtered) issue-type list. -/
def detectStores (issueType : Option String) (resp : Option CreateMeta) : Bool :=
  match resp with
  | none => false
  | some meta =>
    match meta.projects.bind List.head? with
    | none => false
    | some proj =>
      match issueTypesOf proj issueType with
      | none => false
      | some its => !its.isEmpty

/-- The pattern list of one role in the `fieldPatterns` table. -/
def rolePatterns (r : String) : List (List Tok) :=
  ((fieldPatterns.find? (fun rp => rp.1 == r)).map (·.2)).getD []

/-- Modelled from the claim wording of C2 (for refutation): the role is
bound to the FIRST field, in field-iteration order, whose display name
matches one of the role's patterns. -/
def specC2firstMatch (all : List (String × FMeta)) (r : String) : Option String :=
  (all.find? (fun kf =>
    (rolePatterns r).any (fun p => testPat p (fieldNameOf kf.2)))).map (·.1)

/-- Modelled from the claim wording of C7 (for refutation): the failure
message comes from the parsed JSON body — error-message list joined,
else field-error map flattened, else single message field — and
otherwise is the raw HTTP status line. -/
def specMessageC7 (res : HttpResponse) : String :=
  match res.jsonBody with
  | some j =>
      if jsTruthyO (getFieldJv j "errorMessages") then
        joinJs ", " (match getFieldJv j "errorMessages" with
          | some (Jv.arr l) => l
          | _ => [])
      else if jsTruthyO (getFieldJv j "errors") then
        flattenErrors ((getFieldJv j "errors").getD Jv.nullv)
      else if jsTruthyO (getFieldJv j "message") then
        jsToString ((getFieldJv j "message").getD Jv.nullv)
      else statusLine res
  | none => statusLine res

/-- The amended message extraction of C7, stated as a priority list: for a
JSON content type with a parsing body, the truthy error-message list
joined; else, for a truthy field-error map, its flattening when that is
nonempty and the status line otherwise (a later message field is not
consulted); else a truthy message field; else the status line.  For a
JSON content type with a non-parsing body, the status line.  Otherwise
the status line, with the first 200 characters of the body text appended
after a dash when the text is nonempty. -/
def specMessageC7amended (res : HttpResponse) : String :=
  if ctJson res then
    match res.jsonBody with
    | none => statusLine res
    | some j =>
        if jsTruthyO (getFieldJv j "errorMessages") then
          match getFieldJv j "errorMessages" with
          | some (Jv.arr l) => joinJs ", " l
          | _ => statusLine res
        else if jsTruthyO (getFieldJv j "errors") then
          if flattenErrors ((getFieldJv j "errors").getD Jv.nullv) == "" then statusLine res
          else flattenErrors ((getFieldJv j "errors").getD Jv.nullv)
        else if jsTruthyO (getFieldJv j "message") then
          jsToString ((getFieldJv j "message").getD Jv.nullv)
        else statusLine res
  else if res.textBody == "" then statusLine res
  else statusLine res ++ " - " ++ takeStr 200 res.textBody

/-- A 204 response with no body. -/
def r204 : HttpResponse :=
  ⟨204, "No Content", some "application/json", none, none, ""⟩

/-- A 2xx response with a JSON content type whose body fails to parse. -/
def rBadJson : HttpResponse :=
  ⟨200, "OK", some "application/json; charset=utf-8", some "12", none, "not json"⟩

/-- A 400 response with a JSON error body carrying `errorMessages`. -/
def r400json : HttpResponse :=
  ⟨400, "Bad Request", some "application/json", some "58",
    some (Jv.obj [("errorMessages", Jv.arr [Jv.str "Field is required"])]), ""⟩

/-- A 400 response with a plain-text body. -/
def r400text : HttpResponse :=
  ⟨400, "Bad Request", some "text/plain", some "4", none, "oops"⟩

/-- A 500 response with a non-JSON body. -/
def r500text : HttpResponse :=
  ⟨500, "Internal Server Error", some "text/html", some "4", none, "boom"⟩

/-- An invocation that always fails with a retryable (non-4xx-marked)
error. -/
def alwaysFail : Nat → Except JsError Jv :=
  fun _ => Except.error ⟨"socket hang up", none⟩

/-- A create-metadata document with two fields whose display names both
match the story-points role, `cf1` iterated before `cf2`. -/
def cexMeta : CreateMeta :=
  ⟨some [⟨some [⟨"Task", some [("cf1", ⟨some "Story Points"⟩), ("cf2", ⟨some "Story Point"⟩)]⟩]⟩]⟩

/-! ## Helper lemmas on the association-list operations. -/

theorem lookupA_append (m1 m2 : List (String × β)) (k : String) :
    lookupA (m1 ++ m2) k = (lookupA m1 k).or (lookupA m2 k) := by
  simp only [lookupA, List.find?_append]
  cases m1.find? (fun kv => kv.1 == k) <;> simp

theorem find?_map_upd (k : String) (v : β) :
    ∀ m : List (String × β),
      (m.map (fun kv => if kv.1 == k then (k, v) else kv)).find? (fun kv => kv.1 == k) =
        if m.any (fun kv => kv.1 == k) then some (k, v) else none := by
  intro m
  induction m with
  | nil => rfl
  | cons a t ih =>
    rw [List.map_cons, List.any_cons]
    by_cases ha : (a.1 == k) = true
    · rw [if_pos ha, List.find?_cons_of_pos _ (by simp), ha, Bool.true_or, if_pos rfl]
    · have ha' : (a.1 == k) = false := by simpa using ha
      rw [if_neg ha, List.find?_cons_of_neg _ (by simpa using ha), ih, ha', Bool.false_or]

theorem find?_map_upd_ne (k k2 : String) (v : β) (hne : (k == k2) = false) :
    ∀ m : List (String × β),
      (m.map (fun kv => if kv.1 == k then (k, v) else kv)).find? (fun kv => kv.1 == k2) =
        m.find? (fun kv => kv.1 == k2) := by
  intro m
  induction m with
  | nil => rfl
  | cons a t ih =>
    rw [List.map_cons]
    by_cases ha : (a.1 == k) = true
    · have hak : a.1 = k := by simpa using ha
      rw [if_pos ha, List.find?_cons_of_neg _ (by simp [hne]), ih,
        List.find?_cons_of_neg _ (by simp [hak, hne])]
    · rw [if_neg ha]
      by_cases hk2 : (a.1 == k2) = true
      · rw [List.find?_cons_of_pos (p := fun kv : String × β => kv.1 == k2) _ hk2,
          List.find?_cons_of_pos (p := fun kv : String × β => kv.1 == k2) _ hk2]
      · rw [List.find?_cons_of_neg _ (by simpa using hk2),
          List.find?_cons_of_neg _ (by simpa using hk2), ih]

theorem lookupA_upsert_self (m : List (String × β)) (k : String) (v : β) :
    lookupA (upsertAssoc m k v) k = some v := by
  unfold upsertAssoc
  by_cases h : (m.any fun kv => kv.1 == k) = true
  · rw [if_pos h]
    unfold lookupA
    rw [find?_map_upd, if_pos h]
    rfl
  · rw [if_neg h]
    unfold lookupA
    rw [List.find?_append]
    have hnone : List.find? (fun kv => kv.1 == k) m = none := by
      rw [List.find?_eq_none]
      intro x hx hc
      exact h (List.any_eq_true.mpr ⟨x, hx, hc⟩)
    rw [hnone]
    simp [List.find?]

theorem lookupA_upsert_ne (m : List (String × β)) (k k2 : String) (v : β)
    (hne : (k == k2) = false) :
    lookupA (upsertAssoc m k v) k2 = lookupA m k2 := by
  unfold upsertAssoc
  by_cases h : (m.any fun kv => kv.1 == k) = true
  · rw [if_pos h]
    unfold lookupA
    rw [find?_map_upd_ne k k2 v hne]
  · rw [if_neg h]
    unfold lookupA
    rw [List.find?_append]
    have hsing : List.find? (fun kv => kv.1 == k2) [(k, v)] = none := by
      simp [List.find?, hne]
    rw [hsing, Option.or_none]

/-! ## Claim theorems. -/

/-- C10: `clearCache(projectKey)` deletes exactly the cache entries whose
scope key has the given string as a prefix; in particular clearing
`PROJ` also removes the cached scope of project `PROJ2`, whose key
`PROJ2-all` begins with `PROJ`, while non-prefix-matching entries are
untouched; `clearCache()` with no argument empties the whole cache. -/
theorem clearCache_prefix_semantics :
    (∀ (cache : FieldCache) (p k : String),
        lookupA (clearCache (some p) cache) k =
          if jsStartsWith k p then none else lookupA cache k)
    ∧ (∀ cache : FieldCache, clearCache none cache = [])
    ∧ scopeKey "PROJ2" none = "PROJ2-all"
    ∧ jsStartsWith (scopeKey "PROJ2" none) "PROJ" = true
    ∧ clearCache (some "PROJ")
        [("PROJ-all", [("storyPoints", "cf1")]), ("PROJ2-all", []), ("OTHER-all", [])]
        = [("OTHER-all", [])] := by
  refine ⟨?_, by intro cache; rfl, by decide, by decide, by decide⟩
  intro cache p k
  induction cache with
  | nil =>
    by_cases h : jsStartsWith k p <;> simp [clearCache, lookupA, h]
  | cons a t ih =>
    simp only [clearCache] at ih ⊢
    by_cases hpa : jsStartsWith a.1 p
    · rw [show (a :: t).filter (fun kv => !(jsStartsWith kv.1 p)) =
          t.filter (fun kv => !(jsStartsWith kv.1 p)) by simp [List.filter, hpa]]
      rw [ih]
      by_cases hak : a.1 == k
      · have hk : a.1 = k := by simpa using hak
        rw [← hk, hpa]
        simp [hpa]
      · by_cases hpk : jsStartsWith k p <;> simp [hpk, lookupA, List.find?, hak]
    · rw [show (a :: t).filter (fun kv => !(jsStartsWith kv.1 p)) =
          a :: t.filter (fun kv => !(jsStartsWith kv.1 p)) by simp [List.filter, hpa]]
      by_cases hak : a.1 == k
      · have hk : a.1 = k := by simpa using hak
        have hpk : jsStartsWith k p = false := by rw [← hk]; simpa using hpa
        simp [hpk, lookupA, List.find?, hak]
      · simp only [lookupA, List.find?, hak]
        have := ih
        simp only [lookupA] at this
        by_cases hpk : jsStartsWith k p <;> simp [hpk] at this ⊢ <;> exact this

/-- C8: `normalizeIssueType` maps `Úkol` and `Task` to the same canonical
value `Task`; the table lookup is case-insensitive, depending only on the
lower-cased input; an input with no match is returned unchanged, so the
function is total and never fails. -/
theorem normalizeIssueType_canonical :
    normalizeIssueType "Úkol" = "Task"
    ∧ normalizeIssueType "Task" = "Task"
    ∧ normalizeIssueType "Unrecognized-XYZ" = "Unrecognized-XYZ"
    ∧ (∀ s t : String, jsToLower s = jsToLower t → lookupIssueType s = lookupIssueType t)
    ∧ (∀ s : String, lookupIssueType s = none → normalizeIssueType s = s) := by
  refine ⟨by decide, by decide, by decide, ?_, ?_⟩
  · intro s t h
    simp only [lookupIssueType, h]
  · intro s h
    simp [normalizeIssueType, h]

/-- Witness for C8: the case-insensitivity clause applied to `TASK` and
`task`, and the no-match clause applied to `xyz`. -/
theorem normalizeIssueType_canonical_witness :
    (jsToLower "TASK" = jsToLower "task" ∧ lookupIssueType "TASK" = lookupIssueType "task")
    ∧ (lookupIssueType "xyz" = none ∧ normalizeIssueType "xyz" = "xyz") :=
  ⟨⟨by decide, normalizeIssueType_canonical.2.2.2.1 "TASK" "task" (by decide)⟩,
   ⟨by decide, normalizeIssueType_canonical.2.2.2.2 "xyz" (by decide)⟩⟩

/-- C5: a 2xx response with no content-type header, or a content-length of
0, or status 204, makes `JiraClient.request` return a Success outcome with
an empty payload on the first attempt — never a Failure. -/
theorem request_empty_body_success (responses : Nat → HttpResponse)
    (hok : resOk (responses 0) = true)
    (hcond : (responses 0).contentType = none ∨
      (responses 0).contentLength = some "0" ∨ (responses 0).status = 204) :
    jiraRequest responses = ⟨ApiOut.ok (Jv.obj []), 1, []⟩ := by
  have hatt : jiraAttempt (responses 0) = Except.ok (Jv.obj []) := by
    unfold jiraAttempt
    rcases hcond with h | h | h
    · have hf : ctFalsy (responses 0) = true := by simp [ctFalsy, h]
      simp [hok, hf]
    · simp [hok, h]
    · simp [hok, h]
  simp [jiraRequest, retryRun, retryAux, hatt]

/-- Witness for C5: `request_empty_body_success` applied to a 204 response. -/
theorem request_empty_body_success_witness :
    (resOk r204 = true ∧ r204.status = 204)
    ∧ jiraRequest (fun _ => r204) = ⟨ApiOut.ok (Jv.obj []), 1, []⟩ :=
  ⟨⟨by decide, by decide⟩,
    request_empty_body_success (fun _ => r204) (by decide) (Or.inr (Or.inr (by decide)))⟩

/-- C6: a 2xx response with a JSON content type whose body fails to parse
makes `JiraClient.request` return a Success outcome with an empty payload;
the parse failure is absorbed inside the attempt and nothing escapes the
transport boundary. -/
theorem request_unparsable_json_success (responses : Nat → HttpResponse)
    (hok : resOk (responses 0) = true)
    (hct : ctJson (responses 0) = true)
    (hjb : (responses 0).jsonBody = none) :
    jiraRequest responses = ⟨ApiOut.ok (Jv.obj []), 1, []⟩ := by
  have hatt : jiraAttempt (responses 0) = Except.ok (Jv.obj []) := by
    unfold jiraAttempt
    by_cases hempty : (ctFalsy (responses 0) ||
        (responses 0).contentLength == some "0" || (responses 0).status == 204) = true
    · simp only [hok, Bool.not_true, Bool.false_eq_true, if_false]
      rw [if_pos hempty]
    · simp only [hok, Bool.not_true, Bool.false_eq_true, if_false]
      rw [if_neg hempty, if_pos hct, hjb]
  simp [jiraRequest, retryRun, retryAux, hatt]

/-- Witness for C6: `request_unparsable_json_success` applied to a 200
response with a JSON content type and a non-parsing body. -/
theorem request_unparsable_json_success_witness :
    (resOk rBadJson = true ∧ ctJson rBadJson = true ∧ rBadJson.jsonBody = none)
    ∧ jiraRequest (fun _ => rBadJson) = ⟨ApiOut.ok (Jv.obj []), 1, []⟩ :=
  ⟨⟨by decide, by decide, rfl⟩,
    request_unparsable_json_success (fun _ => rBadJson) (by decide) (by decide) rfl⟩

/-- C1 (code bug): a 400 response whose JSON error body carries
`errorMessages` produces a thrown error message without the `HTTP 4`
marker, so `retry` does not recognize it as a client error and
`JiraClient.request` performs all 3 attempts, sleeping in between —
whereas a 400 with a plain-text body keeps the marker and makes exactly
one call, as the spec demands for every 4xx. -/
theorem request_4xx_json_body_is_retried :
    (jiraRequest (fun _ => r400json)).calls = 3
    ∧ (jiraRequest (fun _ => r400json)).delays = [1000, 2000]
    ∧ (jiraRequest (fun _ => r400json)).result = ApiOut.err "Field is required"
    ∧ extractErrorMessage r400json = "Field is required"
    ∧ containsSub (extractErrorMessage r400json) "HTTP 4" = false
    ∧ (jiraRequest (fun _ => r400text)).calls = 1
    ∧ containsSub (extractErrorMessage r400text) "HTTP 4" = true :=
  ⟨rfl, rfl, rfl, rfl, rfl, rfl, rfl⟩

/-- The number of invocations `retry` makes never exceeds the remaining
attempt budget. -/
theorem retryAux_calls_le (outcomes : Nat → Except JsError α) (mult maxD : Nat) :
    ∀ (remaining idx delay : Nat) (lastE : Option JsError),
      (retryAux outcomes idx remaining delay mult maxD lastE).calls ≤ remaining := by
  intro remaining
  induction remaining with
  | zero => intro idx delay lastE; simp [retryAux]
  | succ r ih =>
    intro idx delay lastE
    unfold retryAux
    cases outcomes idx with
    | ok v => simp
    | error e =>
      by_cases h4 : containsSub e.message "HTTP 4" = true
      · simp [h4]
      · by_cases hr : r = 0
        · simp [h4, hr]
        · simp only [h4, Bool.false_eq_true, if_false, hr]
          have := ih (idx + 1) (min (delay * mult) maxD) (some e)
          omega

/-- Shape of the delay sequence `retry` sleeps: when the initial delay is
at most the cap and the multiplier is at least 1, the sequence starts at
the initial delay, each later entry is the predecessor times the
multiplier capped at the maximum, every entry stays at or below the
maximum, and the sequence is non-decreasing. -/
theorem retryAux_delays_spec (outcomes : Nat → Except JsError α) (mult maxD : Nat)
    (hm : 1 ≤ mult) :
    ∀ (remaining idx delay : Nat) (lastE : Option JsError), delay ≤ maxD →
      List.Chain' (fun a b => b = min (a * mult) maxD)
          (retryAux outcomes idx remaining delay mult maxD lastE).delays
      ∧ List.Chain' (· ≤ ·) (retryAux outcomes idx remaining delay mult maxD lastE).delays
      ∧ (∀ d ∈ (retryAux outcomes idx remaining delay mult maxD lastE).delays, d ≤ maxD)
      ∧ ((retryAux outcomes idx remaining delay mult maxD lastE).delays = [] ∨
          (retryAux outcomes idx remaining delay mult maxD lastE).delays.head? = some delay) := by
  intro remaining
  induction remaining with
  | zero => intro idx delay lastE _; simp [retryAux]
  | succ r ih =>
    intro idx delay lastE hd
    unfold retryAux
    cases outcomes idx with
    | ok v => simp
    | error e =>
      by_cases h4 : containsSub e.message "HTTP 4" = true
      · simp [h4]
      · by_cases hr : r = 0
        · simp [h4, hr]
        · simp only [h4, Bool.false_eq_true, if_false, hr]
          have hd2 : min (delay * mult) maxD ≤ maxD := Nat.min_le_right _ _
          have hdle : delay ≤ min (delay * mult) maxD := by
            refine Nat.le_min.mpr ⟨?_, hd⟩
            calc delay = delay * 1 := (Nat.mul_one delay).symm
            _ ≤ delay * mult := Nat.mul_le_mul_left delay hm
          obtain ⟨hc1, hc2, hb, hh⟩ := ih (idx + 1) (min (delay * mult) maxD) (some e) hd2
          refine ⟨?_, ?_, ?_, ?_⟩
          · rw [List.chain'_cons']
            refine ⟨?_, hc1⟩
            intro y hy
            rcases hh with h | h
            · rw [h] at hy; simp at hy
            · rw [h] at hy
              simp only [Option.mem_def, Option.some.injEq] at hy
              omega
          · rw [List.chain'_cons']
            refine ⟨?_, hc2⟩
            intro y hy
            rcases hh with h | h
            · rw [h] at hy; simp at hy
            · rw [h] at hy
              simp only [Option.mem_def, Option.some.injEq] at hy
              omega
          · intro d hdmem
            simp only [List.mem_cons] at hdmem
            rcases hdmem with h | h
            · omega
            · exact hb d h
          · right; rfl

/-- C4 (amended): every `retry` run makes at most `maxAttempts`
invocations; and when the initial delay does not exceed `maxDelay` and the
multiplier is at least 1, the slept delays start at the initial delay,
each subsequent delay is the previous one times the multiplier capped at
`maxDelay`, the sequence is non-decreasing, and every delay is at most
`maxDelay`.  (As stated the claim is false: the first slept delay is the
raw initial delay, uncapped — see the counterexample.) -/
theorem retry_backoff_shape (outcomes : Nat → Except JsError α)
    (maxAttempts delayMs backoffMultiplier maxDelayMs : Nat)
    (hm : 1 ≤ backoffMultiplier) (hd : delayMs ≤ maxDelayMs) :
    (retryRun outcomes maxAttempts delayMs backoffMultiplier maxDelayMs).calls ≤ maxAttempts
    ∧ List.Chain' (fun a b => b = min (a * backoffMultiplier) maxDelayMs)
        (retryRun outcomes maxAttempts delayMs backoffMultiplier maxDelayMs).delays
    ∧ List.Chain' (· ≤ ·)
        (retryRun outcomes maxAttempts delayMs backoffMultiplier maxDelayMs).delays
    ∧ (∀ d ∈ (retryRun outcomes maxAttempts delayMs backoffMultiplier maxDelayMs).delays,
        d ≤ maxDelayMs)
    ∧ ((retryRun outcomes maxAttempts delayMs backoffMultiplier maxDelayMs).delays = [] ∨
        (retryRun outcomes maxAttempts delayMs backoffMultiplier maxDelayMs).delays.head? =
          some delayMs) := by
  obtain ⟨hc1, hc2, hb, hh⟩ :=
    retryAux_delays_spec outcomes backoffMultiplier maxDelayMs hm maxAttempts 0 delayMs none hd
  exact ⟨retryAux_calls_le outcomes backoffMultiplier maxDelayMs maxAttempts 0 delayMs none,
    hc1, hc2, hb, hh⟩

/-- Witness for C4 (amended): `retry_backoff_shape` at the transport's
configuration (3 attempts, initial delay 1000, multiplier 2, cap 10000)
on a persistently failing call, where the slept delays are `[1000, 2000]`. -/
theorem retry_backoff_shape_witness :
    (1 ≤ 2 ∧ 1000 ≤ 10000)
    ∧ ((retryRun alwaysFail 3 1000 2 10000).calls ≤ 3
       ∧ List.Chain' (fun a b => b = min (a * 2) 10000) (retryRun alwaysFail 3 1000 2 10000).delays
       ∧ List.Chain' (· ≤ ·) (retryRun alwaysFail 3 1000 2 10000).delays
       ∧ (∀ d ∈ (retryRun alwaysFail 3 1000 2 10000).delays, d ≤ 10000)
       ∧ ((retryRun alwaysFail 3 1000 2 10000).delays = [] ∨
           (retryRun alwaysFail 3 1000 2 10000).delays.head? = some 1000)) :=
  ⟨⟨by decide, by decide⟩, retry_backoff_shape alwaysFail 3 1000 2 10000 (by decide) (by decide)⟩

/-- Counterexample to C4 as stated: with an initial delay of 20000
exceeding a maxDelay of 10000 (a configuration the claim explicitly
includes), the slept delays are `[20000, 10000]` — strictly decreasing,
with the first delay above `maxDelay`. -/
theorem retry_backoff_counterexample :
    (retryRun alwaysFail 3 20000 2 10000).delays = [20000, 10000]
    ∧ ¬ List.Chain' (· ≤ ·) (retryRun alwaysFail 3 20000 2 10000).delays
    ∧ ¬ (∀ d ∈ (retryRun alwaysFail 3 20000 2 10000).delays, d ≤ 10000) := by
  have h : (retryRun alwaysFail 3 20000 2 10000).delays = [20000, 10000] := rfl
  refine ⟨h, ?_, ?_⟩
  · rw [h, List.chain'_pair]
    omega
  · rw [h]
    intro hall
    have := hall 20000 (by simp)
    omega

/-- A run of `retry` on a function that fails identically on every attempt
ends with that error as its result. -/
theorem retryAux_const_error {α : Type} (e : JsError) (mult maxD : Nat) :
    ∀ (r idx delay : Nat) (lastE : Option JsError),
      (retryAux (fun _ => (Except.error e : Except JsError α))
          idx (r + 1) delay mult maxD lastE).result = Except.error e := by
  intro r
  induction r with
  | zero =>
    intro idx delay lastE
    unfold retryAux
    by_cases h4 : containsSub e.message "HTTP 4" = true <;> simp [h4]
  | succ n ih =>
    intro idx delay lastE
    unfold retryAux
    by_cases h4 : containsSub e.message "HTTP 4" = true
    · simp [h4]
    · simp only [h4, Bool.false_eq_true, if_false, Nat.succ_ne_zero]
      exact ih (idx + 1) (min (delay * mult) maxD) (some e)

/-- The extraction coded in `JiraClient.request` agrees with the amended
priority list of C7 on every response. -/
theorem extract_eq_specAmended (res : HttpResponse) :
    extractErrorMessage res = specMessageC7amended res := by
  unfold extractErrorMessage specMessageC7amended
  by_cases hct : ctJson res = true
  · rw [if_pos hct, if_pos hct]
    cases hjb : res.jsonBody with
    | none => rfl
    | some j =>
      dsimp only
      by_cases hem : jsTruthyO (getFieldJv j "errorMessages") = true
      · rw [if_pos hem, if_pos hem]
      · rw [if_neg hem, if_neg hem]
        by_cases herr : jsTruthyO (getFieldJv j "errors") = true
        · rw [if_pos herr, if_pos herr]
          cases he : getFieldJv j "errors" with
          | none => rw [he] at herr; simp [jsTruthyO] at herr
          | some v => simp [he]
        · rw [if_neg herr, if_neg herr]
          by_cases hmsg : jsTruthyO (getFieldJv j "message") = true
          · rw [if_pos hmsg, if_pos hmsg]
            cases hm : getFieldJv j "message" with
            | none => rw [hm] at hmsg; simp [jsTruthyO] at hmsg
            | some v => simp [hm]
          · rw [if_neg hmsg, if_neg hmsg]
  · rw [if_neg hct, if_neg hct]

/-- C7 (amended): for every non-2xx response, the Failure message that
`JiraClient.request` finally reports (after retrying when the message
lacks the `HTTP 4` marker) is the amended priority-list extraction: the
JSON-body priorities as claimed, but a non-JSON nonempty body is
appended to the status line rather than discarded, and an empty
field-error flattening falls back to the status line. -/
theorem request_failure_message (res : HttpResponse) (hok : resOk res = false) :
    (jiraRequest (fun _ => res)).result = ApiOut.err (specMessageC7amended res) := by
  have hatt : jiraAttempt res =
      Except.error ⟨extractErrorMessage res, some res.status⟩ := by
    unfold jiraAttempt
    rw [hok]
    rfl
  have houtc : (fun i => jiraAttempt ((fun _ : Nat => res) i)) =
      (fun _ : Nat =>
        (Except.error ⟨extractErrorMessage res, some res.status⟩ : Except JsError Jv)) :=
    funext (fun _ => hatt)
  have hres : (retryAux
      (fun _ : Nat =>
        (Except.error ⟨extractErrorMessage res, some res.status⟩ : Except JsError Jv))
      0 3 1000 2 10000 none).result =
      Except.error ⟨extractErrorMessage res, some res.status⟩ :=
    retryAux_const_error _ 2 10000 2 0 1000 none
  simp only [jiraRequest, retryRun, houtc, hres]
  rw [extract_eq_specAmended res]

/-- Witness for C7 (amended): `request_failure_message` applied to a 500
response with a non-JSON body, where the reported message carries the
body text after the status line. -/
theorem request_failure_message_witness :
    resOk r500text = false
    ∧ (jiraRequest (fun _ => r500text)).result = ApiOut.err (specMessageC7amended r500text)
    ∧ specMessageC7amended r500text = "HTTP 500: Internal Server Error - boom" :=
  ⟨by decide, request_failure_message r500text (by decide), rfl⟩

/-- Counterexample to C7 as stated: a 500 response with a non-JSON body
`boom` makes `JiraClient.request` report `HTTP 500: Internal Server
Error - boom`, not the raw status line the claimed priority order would
produce. -/
theorem request_failure_message_counterexample :
    extractErrorMessage r500text = "HTTP 500: Internal Server Error - boom"
    ∧ specMessageC7 r500text = "HTTP 500: Internal Server Error"
    ∧ extractErrorMessage r500text ≠ specMessageC7 r500text
    ∧ (jiraRequest (fun _ => r500text)).result =
        ApiOut.err "HTTP 500: Internal Server Error - boom" := by
  refine ⟨rfl, rfl, ?_, rfl⟩
  intro h
  have h1 : extractErrorMessage r500text = "HTTP 500: Internal Server Error - boom" := rfl
  have h2 : specMessageC7 r500text = "HTTP 500: Internal Server Error" := rfl
  rw [h1, h2] at h
  exact absurd h (by decide)

/-- What a lookup into the fold of the pattern-matching pass returns: the
last field whose first matching role is the looked-up role, falling back
to the accumulator. -/
theorem matchFields_foldl_lookup :
    ∀ (all : List (String × FMeta)) (acc : List (String × String)) (r : String),
      lookupA (all.foldl (fun acc kf =>
        match firstRole (fieldNameOf kf.2) with
        | some role => upsertAssoc acc role kf.1
        | none => acc) acc) r =
      (match all.reverse.find? (fun kf => firstRole (fieldNameOf kf.2) == some r) with
       | some kf => some kf.1
       | none => lookupA acc r) := by
  intro all
  induction all with
  | nil => intro acc r; rfl
  | cons kf rest ih =>
    intro acc r
    rw [List.foldl_cons, ih, List.reverse_cons, List.find?_append]
    cases hfind : rest.reverse.find? (fun kf2 => firstRole (fieldNameOf kf2.2) == some r) with
    | some x => rfl
    | none =>
      rw [Option.none_or]
      dsimp only
      by_cases hp : (firstRole (fieldNameOf kf.2) == some r) = true
      · rw [List.find?_cons_of_pos
          (p := fun kf : String × FMeta => firstRole (fieldNameOf kf.2) == some r) _ hp]
        have hrole : firstRole (fieldNameOf kf.2) = some r := by simpa using hp
        rw [hrole]
        exact lookupA_upsert_self acc r kf.1
      · rw [List.find?_cons_of_neg
          (p := fun kf : String × FMeta => firstRole (fieldNameOf kf.2) == some r) _
          (by simpa using hp), List.find?_nil]
        cases hrole : firstRole (fieldNameOf kf.2) with
        | none => rfl
        | some role =>
          have hne : (role == r) = false := by
            rw [hrole] at hp
            simpa using hp
          exact lookupA_upsert_ne acc role r kf.1 hne

/-- C2 (amended): in `FieldDetector.detectFields`, the pattern-matching
pass binds each role to the LAST field, in field-iteration order, whose
first matching role (in role order) is that role; a later matching field
overwrites an earlier assignment, and a field is assigned only to the
first role its name matches. -/
theorem detectFields_last_match_wins (all : List (String × FMeta)) (r : String) :
    lookupA (matchFields all) r =
      (all.reverse.find? (fun kf => firstRole (fieldNameOf kf.2) == some r)).map (·.1) := by
  unfold matchFields
  rw [matchFields_foldl_lookup all [] r]
  cases h : all.reverse.find? (fun kf => firstRole (fieldNameOf kf.2) == some r) with
  | some x => rfl
  | none => rfl

/-- Counterexample to C2 as stated: a metadata document whose unioned
field map lists `cf1` (`Story Points`) before `cf2` (`Story Point`), both
matching the story-points role; the claim binds the role to the first
field `cf1`, but `detectFields` returns `cf2`. -/
theorem detectFields_first_match_counterexample :
    (detectFields [] "P" none (some cexMeta)).result = [("storyPoints", "cf2")]
    ∧ lookupA (detectFields [] "P" none (some cexMeta)).result "storyPoints" = some "cf2"
    ∧ specC2firstMatch
        (unionFields [⟨"Task", some [("cf1", ⟨some "Story Points"⟩),
          ("cf2", ⟨some "Story Point"⟩)]⟩]) "storyPoints" = some "cf1"
    ∧ (some "cf2" : Option String) ≠ some "cf1" :=
  ⟨rfl, rfl, rfl, by decide⟩

/-- C3 (amended): when a `detectFields` call for a scope either hits the
cache or completes a successful detection (metadata present, a first
project, a nonempty issue-type list), a second call for the same scope
with no intervening cache clear is served from the cache: it makes no
remote metadata call, the two calls make at most one metadata call in
total, and the second call returns the same map.  (A failed detection is
not cached and is re-queried — see the counterexample.) -/
theorem detectFields_cached_second_call (cache : FieldCache) (pk : String)
    (it : Option String) (r1 r2 : Option CreateMeta)
    (h : (lookupA cache (scopeKey pk it)).isSome = true ∨ detectStores it r1 = true) :
    (detectFields (detectFields cache pk it r1).cache pk it r2).metaCalls = 0
    ∧ (detectFields cache pk it r1).metaCalls +
        (detectFields (detectFields cache pk it r1).cache pk it r2).metaCalls ≤ 1
    ∧ (detectFields (detectFields cache pk it r1).cache pk it r2).result =
        (detectFields cache pk it r1).result := by
  cases hc : lookupA cache (scopeKey pk it) with
  | some m =>
    have h1 : detectFields cache pk it r1 = ⟨m, cache, 0⟩ := by
      simp only [detectFields, hc]
    have h2 : detectFields cache pk it r2 = ⟨m, cache, 0⟩ := by
      simp only [detectFields, hc]
    refine ⟨?_, ?_, ?_⟩ <;> simp [h1, h2]
  | none =>
    rcases h with h | h
    · rw [hc] at h; simp at h
    · unfold detectStores at h
      cases hr1 : r1 with
      | none => rw [hr1] at h; simp at h
      | some meta =>
        rw [hr1] at h
        dsimp only at h
        cases hproj : meta.projects.bind List.head? with
        | none => rw [hproj] at h; simp at h
        | some proj =>
          rw [hproj] at h
          dsimp only at h
          cases hits : issueTypesOf proj it with
          | none => rw [hits] at h; simp at h
          | some its =>
            rw [hits] at h
            dsimp only at h
            have hne : its.isEmpty = false := by simpa using h
            have h1 : detectFields cache pk it (some meta) =
                ⟨matchFields (unionFields its),
                  upsertAssoc cache (scopeKey pk it) (matchFields (unionFields its)), 1⟩ := by
              simp [detectFields, hc, hproj, hits, hne]
            have h2 : detectFields
                (upsertAssoc cache (scopeKey pk it) (matchFields (unionFields its)))
                pk it r2 =
                ⟨matchFields (unionFields its),
                  upsertAssoc cache (scopeKey pk it) (matchFields (unionFields its)), 0⟩ := by
              simp only [detectFields, lookupA_upsert_self]
            refine ⟨?_, ?_, ?_⟩ <;> simp [h1, h2]

/-- Witness for C3 (amended): `detectFields_cached_second_call` on an
empty cache with a successful first detection; the first call queries the
metadata endpoint once and the second call is a pure cache hit returning
the same map. -/
theorem detectFields_cached_second_call_witness :
    detectStores none (some cexMeta) = true
    ∧ ((detectFields (detectFields [] "P" none (some cexMeta)).cache
          "P" none (some cexMeta)).metaCalls = 0
       ∧ (detectFields [] "P" none (some cexMeta)).metaCalls +
           (detectFields (detectFields [] "P" none (some cexMeta)).cache
             "P" none (some cexMeta)).metaCalls ≤ 1
       ∧ (detectFields (detectFields [] "P" none (some cexMeta)).cache
             "P" none (some cexMeta)).result =
           (detectFields [] "P" none (some cexMeta)).result) :=
  ⟨by decide,
    detectFields_cached_second_call [] "P" none (some cexMeta) (some cexMeta)
      (Or.inr (by decide))⟩

/-- Counterexample to C3 as stated: when the first metadata call fails,
nothing is cached, and a second `detectFields` call for the same scope
invokes the metadata endpoint again — two remote calls in total, not at
most one. -/
theorem detectFields_failure_not_cached_counterexample :
    (detectFields [] "PROJ" none none).metaCalls +
      (detectFields (detectFields [] "PROJ" none none).cache "PROJ" none none).metaCalls = 2
    ∧ ¬ ((detectFields [] "PROJ" none none).metaCalls +
          (detectFields (detectFields [] "PROJ" none none).cache "PROJ" none none).metaCalls
            ≤ 1) := by
  refine ⟨rfl, ?_⟩
  intro hle
  have h2 : (detectFields [] "PROJ" none none).metaCalls +
      (detectFields (detectFields [] "PROJ" none none).cache "PROJ" none none).metaCalls = 2 :=
    rfl
  omega

/-- C9 (amended): when the first link attempt fails with a message
mentioning the link type (in either language), and the request does not
look like an Epic-Story attempt (the requested name does not contain
`epic` and the error does not mention the system link type), and the
link-type metadata fetch yields a nonempty list, then: on a
case-insensitive match of the requested name against an entry's name,
inward phrase or outward phrase, the handler retries exactly once with
the matched entry's name and renders that retry's outcome; with no
matching entry it reports the available types without retrying. -/
theorem linkIssues_fallback (inwardIssue outwardIssue linkType : String)
    (e : String) (data : LinkTypesData) (retryFn : Option String → LinkResult)
    (hshape : containsSub e "typ odkazu" = true ∨ containsSub e "link type" = true)
    (hepic1 : containsSub (jsToLower linkType) "epic" = false)
    (hepic2 : containsSub e "systémového propojení" = false)
    (hepic3 : containsSub e "system link type" = false)
    (hne : (linkTypesList data).isEmpty = false) :
    (∀ mt, (linkTypesList data).find? (ltMatches (jsToLower linkType)) = some mt →
      linkIssuesHandler inwardIssue outwardIssue linkType (Except.error e) (some data) retryFn
        = ⟨linkFinalText inwardIssue outwardIssue linkType (retryFn mt.ltName), 2, true⟩)
    ∧ ((linkTypesList data).find? (ltMatches (jsToLower linkType)) = none →
      linkIssuesHandler inwardIssue outwardIssue linkType (Except.error e) (some data) retryFn
        = ⟨"❌ Link type \"" ++ linkType ++ "\" not found.\nAvailable types: " ++
            String.intercalate ", " ((linkTypesList data).map (fun lt =>
              "\"" ++ optField lt.ltName ++ "\" (" ++ optField lt.inwardD ++ "/" ++
                optField lt.outwardD ++ ")")), 1, true⟩) := by
  have hguard : (!(Except.error e : LinkResult).isOk &&
      (containsSub (jsToLower linkType) "epic" ||
       linkErrIncludes (Except.error e) "systémového propojení" ||
       linkErrIncludes (Except.error e) "system link type")) = false := by
    simp [Except.isOk, Except.toBool, linkErrIncludes, hepic1, hepic2, hepic3]
  have hshape2 : (!(Except.error e : LinkResult).isOk &&
      (linkErrIncludes (Except.error e) "typ odkazu" ||
       linkErrIncludes (Except.error e) "link type")) = true := by
    rcases hshape with h | h <;> simp [Except.isOk, Except.toBool, linkErrIncludes, h]
  constructor
  · intro mt hmt
    unfold linkIssuesHandler
    rw [if_neg (by rw [hguard]; exact Bool.false_ne_true),
      if_pos hshape2]
    dsimp only
    rw [if_neg (by rw [hne]; exact Bool.false_ne_true), hmt]
  · intro hmt
    unfold linkIssuesHandler
    rw [if_neg (by rw [hguard]; exact Bool.false_ne_true),
      if_pos hshape2]
    dsimp only
    rw [if_neg (by rw [hne]; exact Bool.false_ne_true), hmt]

/-- Witness for C9 (amended): the spec scenario — a link attempt with
`Blocks` fails with a link-type-shaped error, the metadata holds one
entry whose outward phrase is `blocks`, and the retry with that entry's
canonical name succeeds. -/
theorem linkIssues_fallback_witness :
    (containsSub "No issue link type with name Blocks was found" "link type" = true
     ∧ containsSub (jsToLower "Blocks") "epic" = false
     ∧ (linkTypesList (LinkTypesData.arrD
          [⟨some "Blokuje", some "is blocked by", some "blocks"⟩])).isEmpty = false)
    ∧ linkIssuesHandler "A-1" "B-2" "Blocks"
        (Except.error "No issue link type with name Blocks was found")
        (some (LinkTypesData.arrD [⟨some "Blokuje", some "is blocked by", some "blocks"⟩]))
        (fun _ => Except.ok ())
        = ⟨linkFinalText "A-1" "B-2" "Blocks" (Except.ok ()), 2, true⟩ :=
  ⟨⟨rfl, rfl, rfl⟩,
    (linkIssues_fallback "A-1" "B-2" "Blocks"
      "No issue link type with name Blocks was found"
      (LinkTypesData.arrD [⟨some "Blokuje", some "is blocked by", some "blocks"⟩])
      (fun _ => Except.ok ()) (Or.inr rfl) rfl rfl rfl rfl).1
      ⟨some "Blokuje", some "is blocked by", some "blocks"⟩ rfl⟩

/-- Counterexample to C9 as stated: a link attempt with type `Epic` that
fails with a `link type`-shaped error is intercepted by the Epic-Story
guard — the handler returns fixed guidance without fetching the link-type
metadata and without retrying, even though metadata with a matching entry
is available. -/
theorem linkIssues_epic_guard_counterexample :
    containsSub "No issue link type with name Epic was found" "link type" = true
    ∧ linkIssuesHandler "A-1" "B-2" "Epic"
        (Except.error "No issue link type with name Epic was found")
        (some (LinkTypesData.arrD [⟨some "Blocks", some "is blocked by", some "blocks"⟩]))
        (fun _ => Except.ok ())
        = ⟨epicGuidanceText, 1, false⟩ :=
  ⟨rfl, rfl⟩

end JiraMcp
